import Mathlib

/-!
Shallow embedding of the image-editing core of `gnome-nano-image-edit`
(`src/processor.py`, `ImageProcessor`; `src/manager.py`, `ToolManager`).

Pixels are ARGB32 values as Cairo stores them: premultiplied RGBA with
8-bit channels, modelled as natural numbers.  A surface is a width, a
height and a pixel function over integer coordinates; sampling outside
the bounds yields transparent, matching Cairo's `EXTEND_NONE` source
semantics for integer-aligned placements.  `ctx.set_source_surface`
followed by `ctx.paint()` (default `OPERATOR_OVER`) is `paintOver`;
`OPERATOR_CLEAR` on an integer rectangle is `clearRectOp`.  Deep copies
of surfaces (`_copy_surface`) are identities on values.  External
rasterisation (GdkPixbuf decoding, Cairo stroke/arc/text rendering) is
abstracted behind explicit oracle functions; all state sequencing and
guards are translated directly from the Python source.
-/

/-- One ARGB32 pixel: premultiplied RGBA, 8 bits per channel. -/
structure Pixel where
  r : Nat
  g : Nat
  b : Nat
  a : Nat
deriving DecidableEq, Repr

/-- The fully transparent pixel (all four bytes zero). -/
def Pixel.transparent : Pixel := ⟨0, 0, 0, 0⟩

/-- Porter-Duff OVER on premultiplied pixels, per channel
`src + dst * (255 - src.a) / 255`.  Cairo computes this in 8-bit fixed
point; the rounding convention is irrelevant to the claims below, which
only exercise fully opaque or fully transparent operands, where every
convention agrees. -/
def Pixel.over (s d : Pixel) : Pixel :=
  ⟨s.r + d.r * (255 - s.a) / 255,
   s.g + d.g * (255 - s.a) / 255,
   s.b + d.b * (255 - s.a) / 255,
   s.a + d.a * (255 - s.a) / 255⟩

/-- An RGBA color tuple with 0-255 components, as passed around the
Python code, e.g. `(255, 0, 0, 255)`. -/
def Color := Nat × Nat × Nat × Nat

/-- Converting a color set via `ctx.set_source_rgba` (which divides by
255.0) into the premultiplied ARGB32 pixel Cairo stores. -/
def colorToPixel (c : Color) : Pixel :=
  ⟨c.1 * c.2.2.2 / 255, c.2.1 * c.2.2.2 / 255, c.2.2.1 * c.2.2.2 / 255, c.2.2.2⟩

/-- A Cairo image surface: dimensions plus pixel contents.  Only the
values `pix i j` with `0 ≤ i < width`, `0 ≤ j < height` are buffer
bytes; everything outside is never read except through `sample`. -/
structure Surface where
  width : Nat
  height : Nat
  pix : Int → Int → Pixel

/-- Sampling a surface used as a Cairo source pattern: transparent
outside the bounds (`EXTEND_NONE`). -/
def Surface.sample (s : Surface) (i j : Int) : Pixel :=
  if 0 ≤ i ∧ i < (s.width : Int) ∧ 0 ≤ j ∧ j < (s.height : Int) then
    s.pix i j
  else
    Pixel.transparent

/-- Byte-identical surfaces: same dimensions and same buffer contents. -/
def Surface.equiv (s t : Surface) : Prop :=
  s.width = t.width ∧ s.height = t.height ∧
    ∀ i j : Int, 0 ≤ i → i < (s.width : Int) → 0 ≤ j → j < (s.height : Int) →
      s.pix i j = t.pix i j

/-- A fresh `cairo.ImageSurface(FORMAT_ARGB32, w, h)`: all transparent. -/
def blankSurface (w h : Nat) : Surface :=
  ⟨w, h, fun _ _ => Pixel.transparent⟩

/-- A fresh surface painted with a solid color
(`set_source_rgba` + `paint` on a blank surface). -/
def fillSurface (w h : Nat) (c : Color) : Surface :=
  ⟨w, h, fun _ _ => colorToPixel c⟩

/-- `ctx.set_source_surface(src, ox, oy); ctx.paint()` on `dst` with the
default `OPERATOR_OVER`: every destination pixel becomes the source
sample composited over it. -/
def paintOver (dst src : Surface) (ox oy : Int) : Surface :=
  ⟨dst.width, dst.height, fun i j => Pixel.over (src.sample (i - ox) (j - oy)) (dst.pix i j)⟩

/-- `ctx.rectangle(x, y, w, h); ctx.set_operator(OPERATOR_CLEAR); ctx.fill()`
for integer-aligned coordinates: the rectangle becomes transparent. -/
def clearRectOp (s : Surface) (x y w h : Int) : Surface :=
  ⟨s.width, s.height, fun i j =>
    if x ≤ i ∧ i < x + w ∧ y ≤ j ∧ j < y + h then Pixel.transparent else s.pix i j⟩

/-- A selection box `(x, y, w, h)` in image-space pixels.  The Python
code passes these as 4-tuples of numbers and truncates with `int(...)`
where it consumes them; the claims only concern integer boxes, so the
components are integers here and `int(...)` is the identity. -/
def Rect := Int × Int × Int × Int

/-- Errors raised inside `load_image`: `DecodeError` covers
`GdkPixbuf.Pixbuf.new_from_file` and `create_from_png` failures
(absent/unreadable/unsupported file), `ConversionError` the
`save_to_bufferv` PNG conversion failure. -/
inductive LoadError where
  | decodeError
  | conversionError
deriving DecidableEq, Repr

/-- The external collaborators whose pixel output the core does not
compute itself: the GdkPixbuf/PNG decoding pipeline of `load_image` and
the Cairo rasterisers used by the brush and text tools.  They are
parameters of the embedding; every claim below holds for all oracles. -/
structure Oracles where
  decode : String → Except LoadError Surface
  stroke : List (Int × Int) → Int → Color → Surface → Surface
  dab : Int × Int → Int → Color → Surface → Surface
  text : String → Int → Int → Option String → Int → Color → Surface → Surface

/-- The mutable state of `ImageProcessor` (`processor.py`, `__init__`).
Field names drop the Python leading underscore.  The undo/redo stacks
hold what `_copy_surface` returns, which is `None` for a `None`
argument, hence `Option Surface` entries. -/
structure ProcState where
  original_surface : Option Surface
  current_surface : Option Surface
  floating_selection_data : Option Surface
  selection_box : Option Rect
  floating_selection_position : Option (Int × Int)
  brush_size : Int
  text_size : Int
  brush_color : Color
  font_path : Option String
  image_path : Option String
  undo_stack : List (Option Surface)
  redo_stack : List (Option Surface)
  is_cropping : Bool
  crop_pan_offset : Int × Int

/-- `self._max_undo_steps`, set to 20 in `__init__` and never
reassigned. -/
def max_undo_steps : Nat := 20

/-- The state built by `ImageProcessor.__init__`. -/
def initState : ProcState :=
  { original_surface := none
    current_surface := none
    floating_selection_data := none
    selection_box := none
    floating_selection_position := none
    brush_size := 10
    text_size := 20
    brush_color := (255, 0, 0, 255)
    font_path := none
    image_path := none
    undo_stack := []
    redo_stack := []
    is_cropping := false
    crop_pan_offset := (0, 0) }

/-- `_copy_surface`: returns `None` for a falsy argument, otherwise a
deep copy; on values a deep copy is the identity. -/
def copy_surface (s : Option Surface) : Option Surface := s

/-- `clear_floating_selection`: discards float data, the selection box
and the float position. -/
def clear_floating_selection (s : ProcState) : ProcState :=
  { s with
    floating_selection_data := none
    selection_box := none
    floating_selection_position := none }

/-- `paste_selection`: if a current surface and floating data exist,
paints the float over the current surface at its stored position
(`OPERATOR_OVER`) and clears the floating state.  The position is read
unconditionally in Python (`x, y = self._floating_selection_position`);
it is set and cleared together with the data everywhere in the source,
so the extra `none` case here is unreachable. -/
def paste_selection (s : ProcState) : ProcState :=
  match s.current_surface, s.floating_selection_data, s.floating_selection_position with
  | some cur, some fd, some (x, y) =>
      clear_floating_selection
        { s with current_surface := some (paintOver cur fd x y) }
  | _, _, _ => s

/-- `save_state`: if a current surface exists, append a copy to the undo
stack (most-recent-last), evict the oldest entry (`pop(0)`) when the
length exceeds `max_undo_steps`, and clear the redo stack. -/
def save_state (s : ProcState) : ProcState :=
  match s.current_surface with
  | none => s
  | some cur =>
      let stk := s.undo_stack ++ [some cur]
      { s with
        undo_stack := if max_undo_steps < stk.length then stk.drop 1 else stk
        redo_stack := [] }

/-- `undo`: on a non-empty undo stack, push a copy of the current
surface onto the redo stack, pop the most recent undo entry into the
current surface, clear the floating selection, and report `True`;
otherwise report `False` with the state untouched. -/
def undo (s : ProcState) : Bool × ProcState :=
  if s.undo_stack.isEmpty then (false, s)
  else
    (true, clear_floating_selection
      { s with
        redo_stack := s.redo_stack ++ [copy_surface s.current_surface]
        current_surface := s.undo_stack.getLastD none
        undo_stack := s.undo_stack.dropLast })

/-- `redo`: symmetric to `undo`, popping from the redo stack. -/
def redo (s : ProcState) : Bool × ProcState :=
  if s.redo_stack.isEmpty then (false, s)
  else
    (true, clear_floating_selection
      { s with
        undo_stack := s.undo_stack ++ [copy_surface s.current_surface]
        current_surface := s.redo_stack.getLastD none
        redo_stack := s.redo_stack.dropLast })

/-- `create_blank_image`: clears the floating selection, builds a fresh
surface filled with `color`, stores it as both original and current
(via `_copy_surface`), resets the image path and both stacks.  Cairo
raises before any further mutation when the dimensions are negative;
`Int.toNat` stands in for the non-negative case the claims use. -/
def create_blank_image (width height : Int) (color : Color) (s : ProcState) : ProcState :=
  let s0 := clear_floating_selection s
  let surf := fillSurface width.toNat height.toNat color
  { s0 with
    original_surface := some surf
    current_surface := copy_surface (some surf)
    image_path := none
    undo_stack := []
    redo_stack := [] }

/-- `load_image`: clears the floating selection first, then runs the
fallible GdkPixbuf→PNG→Cairo pipeline (the `decode` oracle, which also
covers the ARGB32-format normalisation paint), and only on success
replaces the surfaces, the image path and both stacks.  A raised
exception propagates with `self` already mutated by the initial clear,
which the `error` branch records by carrying the post-clear state. -/
def load_image (decode : String → Except LoadError Surface) (filepath : String)
    (s : ProcState) : Except (LoadError × ProcState) ProcState :=
  let s0 := clear_floating_selection s
  match decode filepath with
  | .error e => .error (e, s0)
  | .ok surface =>
      .ok { s0 with
            original_surface := some surface
            current_surface := copy_surface (some surface)
            image_path := some filepath
            undo_stack := []
            redo_stack := [] }

/-- `current_image` property: the current surface with any floating
selection composited over it on a throwaway copy. -/
def current_image (s : ProcState) : Option Surface :=
  match s.current_surface, s.floating_selection_data, s.floating_selection_position with
  | some cur, some fd, some (x, y) => some (paintOver cur fd x y)
  | cur, _, _ => cur

/-- `start_crop`: finalises any floating selection, enters crop mode and
resets the pan offset. -/
def start_crop (s : ProcState) : ProcState :=
  let s1 := paste_selection s
  { s1 with is_cropping := true, crop_pan_offset := (0, 0) }

/-- `cancel_crop`: leaves crop mode, drops the selection box, resets the
pan offset; no pixel mutation. -/
def cancel_crop (s : ProcState) : ProcState :=
  { s with is_cropping := false, selection_box := none, crop_pan_offset := (0, 0) }

/-- `apply_crop`: when a current surface, a selection box and crop mode
are all present, saves an undo snapshot, paints the old surface at
offset `(-x + pan_x, -y + pan_y)` onto a fresh `int(w) × int(h)`
surface, installs it as current and calls `cancel_crop`; otherwise a
no-op. -/
def apply_crop (s : ProcState) : ProcState :=
  match s.current_surface, s.selection_box, s.is_cropping with
  | some cur, some (x, y, w, h), true =>
      let s1 := save_state s
      let pan := s.crop_pan_offset
      let newSurf := paintOver (blankSurface w.toNat h.toNat) cur (-x + pan.1) (-y + pan.2)
      cancel_crop { s1 with current_surface := some newSurf }
  | _, _, _ => s

/-- `cut_selection`: guarded on a current surface and a (truthy, i.e.
present) selection box.  Pastes any existing float, saves an undo
snapshot, records the box and the float position, extracts the box
pixels into a fresh float surface, and clears the box area on the
current surface to transparent. -/
def cut_selection (box : Option Rect) (s : ProcState) : ProcState :=
  match s.current_surface, box with
  | some _, some (x, y, w, h) =>
      let s1 := save_state (paste_selection s)
      match s1.current_surface with
      | none => s1
      | some cur =>
          let fd := paintOver (blankSurface w.toNat h.toNat) cur (-x) (-y)
          { s1 with
            selection_box := some (x, y, w, h)
            floating_selection_position := some (x, y)
            floating_selection_data := some fd
            current_surface := some (clearRectOp cur x y w h) }
  | _, _ => s

/-- `copy_selection`: like `cut_selection`'s extraction but
non-destructive and without an undo snapshot; still pastes any pending
float first and returns the copied surface (or `None` when guarded
out). -/
def copy_selection (box : Option Rect) (s : ProcState) : Option Surface × ProcState :=
  match s.current_surface, box with
  | some _, some (x, y, w, h) =>
      let s1 := paste_selection s
      match s1.current_surface with
      | none => (none, s1)
      | some cur => (some (paintOver (blankSurface w.toNat h.toNat) cur (-x) (-y)), s1)
  | _, _ => (none, s)

/-- `set_floating_selection`: commits any previous float, saves one undo
snapshot, then installs the externally supplied surface as the float at
`(x, y)`. -/
def set_floating_selection (surface : Surface) (x y : Int) (s : ProcState) : ProcState :=
  let s1 := save_state (paste_selection s)
  { s1 with
    floating_selection_data := some surface
    floating_selection_position := some (x, y) }

/-- `move_floating_selection`: repositions an existing float; no-op when
there is none. -/
def move_floating_selection (x y : Int) (s : ProcState) : ProcState :=
  if s.floating_selection_data.isSome then
    { s with floating_selection_position := some (x, y) }
  else s

/-- `set_brush_size`: pastes any pending float, then stores the size. -/
def set_brush_size (size : Int) (s : ProcState) : ProcState :=
  { paste_selection s with brush_size := size }

/-- `set_brush_color`: pastes any pending float, then stores the color. -/
def set_brush_color (color : Color) (s : ProcState) : ProcState :=
  { paste_selection s with brush_color := color }

/-- `set_text_size`: stores the text size; touches nothing else. -/
def set_text_size (size : Int) (s : ProcState) : ProcState :=
  { s with text_size := size }

/-- `start_drawing`: a bare undo snapshot before a stroke. -/
def start_drawing (s : ProcState) : ProcState :=
  save_state s

/-- `draw_brush_stroke`: with a current surface and at least two points,
replaces the current surface with the Cairo stroke rasterisation
(abstracted by the oracle); no snapshot of its own. -/
def draw_brush_stroke (O : Oracles) (points : List (Int × Int)) (s : ProcState) : ProcState :=
  match s.current_surface with
  | some cur =>
      if 2 ≤ points.length then
        { s with current_surface := some (O.stroke points s.brush_size s.brush_color cur) }
      else s
  | none => s

/-- `draw_brush_dab`: with a current surface, saves an undo snapshot and
fills a circle (abstracted by the oracle). -/
def draw_brush_dab (O : Oracles) (point : Int × Int) (s : ProcState) : ProcState :=
  match s.current_surface with
  | some cur =>
      let s1 := save_state s
      { s1 with current_surface := some (O.dab point s.brush_size s.brush_color cur) }
  | none => s

/-- `set_font_path`: stores the font path. -/
def set_font_path (fp : String) (s : ProcState) : ProcState :=
  { s with font_path := some fp }

/-- `add_text`: with a current surface, pastes any pending float, saves
an undo snapshot, then renders the text (abstracted by the oracle) with
the argument font path taking precedence over the stored one. -/
def add_text (O : Oracles) (text : String) (x y : Int) (fp : Option String)
    (s : ProcState) : ProcState :=
  match s.current_surface with
  | none => s
  | some _ =>
      let s1 := save_state (paste_selection s)
      match s1.current_surface with
      | none => s1
      | some cur =>
          let target := match fp with | some p => some p | none => s1.font_path
          { s1 with
            current_surface :=
              some (O.text text x y target s1.text_size s1.brush_color cur) }

/-- `save_image`: with a current surface, pastes any pending float,
writes the PNG (external I/O, no state effect) and records the path. -/
def save_image (filepath : String) (s : ProcState) : ProcState :=
  match s.current_surface with
  | none => s
  | some _ =>
      let s1 := paste_selection s
      { s1 with image_path := some filepath }

/-- `_compute_anchor_offset`: 0 for `left`/`top`, `new - old` for
`right`/`bottom`, otherwise centered with Python floor division. -/
def compute_anchor_offset (anchor : String) (old_size new_size : Int) : Int :=
  if anchor = "left" ∨ anchor = "top" then 0
  else if anchor = "right" ∨ anchor = "bottom" then new_size - old_size
  else (new_size - old_size).fdiv 2

/-- `resize_canvas`: with a current surface, pastes any pending float,
saves an undo snapshot, clamps the requested dimensions to at least 1,
fills a fresh surface with `fill_color` and paints the (post-paste)
current surface over it at the per-axis anchor offsets. -/
def resize_canvas (new_width new_height : Int) (anchor : String × String)
    (fill_color : Color) (s : ProcState) : ProcState :=
  match s.current_surface with
  | none => s
  | some _ =>
      let s1 := save_state (paste_selection s)
      match s1.current_surface with
      | none => s1
      | some cur =>
          let w := max 1 new_width
          let h := max 1 new_height
          let filled := fillSurface w.toNat h.toNat fill_color
          let ox := compute_anchor_offset anchor.1 (cur.width : Int) w
          let oy := compute_anchor_offset anchor.2 (cur.height : Int) h
          { s1 with current_surface := some (paintOver filled cur ox oy) }

/-- `ToolManager.VALID_TOOLS` (`manager.py`). -/
def VALID_TOOLS : List String := ["select", "crop", "text", "brush", "move"]

/-- `ToolManager`: the single `_current_tool` field. -/
structure ToolManager where
  current_tool : String

/-- `ToolManager.__init__`: the default tool. -/
def ToolManager.init : ToolManager := ⟨"select"⟩

/-- The `current_tool` setter: accepts members of `VALID_TOOLS`,
otherwise logs a warning and keeps the previous tool (never raises). -/
def set_current_tool (tool_name : String) (m : ToolManager) : ToolManager :=
  if tool_name ∈ VALID_TOOLS then { m with current_tool := tool_name } else m

/-- One invocation of a public `ImageProcessor` method, with its
arguments.  This is the full mutating interface of `processor.py`. -/
inductive EngineOp where
  | createBlank (width height : Int) (color : Color)
  | loadImage (filepath : String)
  | saveState
  | undoOp
  | redoOp
  | startCrop
  | cancelCrop
  | applyCrop
  | cutSelection (box : Option Rect)
  | copySelection (box : Option Rect)
  | setFloating (surface : Surface) (x y : Int)
  | pasteSelection
  | clearFloating
  | moveFloating (x y : Int)
  | setBrushSize (size : Int)
  | setBrushColor (color : Color)
  | setTextSize (size : Int)
  | startDrawing
  | drawStroke (points : List (Int × Int))
  | drawDab (point : Int × Int)
  | setFontPath (fp : String)
  | addText (text : String) (x y : Int) (fp : Option String)
  | saveImage (filepath : String)
  | resizeCanvas (new_width new_height : Int) (anchor : String × String) (fill : Color)

/-- The state reached by one engine operation.  A `load_image` failure
leaves the state the exception propagated out of. -/
def stepOp (O : Oracles) (op : EngineOp) (s : ProcState) : ProcState :=
  match op with
  | .createBlank w h c => create_blank_image w h c s
  | .loadImage fp =>
      match load_image O.decode fp s with
      | .error (_, s1) => s1
      | .ok s1 => s1
  | .saveState => save_state s
  | .undoOp => (undo s).2
  | .redoOp => (redo s).2
  | .startCrop => start_crop s
  | .cancelCrop => cancel_crop s
  | .applyCrop => apply_crop s
  | .cutSelection box => cut_selection box s
  | .copySelection box => (copy_selection box s).2
  | .setFloating surf x y => set_floating_selection surf x y s
  | .pasteSelection => paste_selection s
  | .clearFloating => clear_floating_selection s
  | .moveFloating x y => move_floating_selection x y s
  | .setBrushSize n => set_brush_size n s
  | .setBrushColor c => set_brush_color c s
  | .setTextSize n => set_text_size n s
  | .startDrawing => start_drawing s
  | .drawStroke pts => draw_brush_stroke O pts s
  | .drawDab p => draw_brush_dab O p s
  | .setFontPath fp => set_font_path fp s
  | .addText t x y fp => add_text O t x y fp s
  | .saveImage fp => save_image fp s
  | .resizeCanvas w h a c => resize_canvas w h a c s

/-- The state after a sequence of engine operations. -/
def runOps (O : Oracles) (ops : List EngineOp) (s : ProcState) : ProcState :=
  ops.foldl (fun t op => stepOp O op t) s

/-- A trivial oracle assignment, for concrete evaluations: decoding
always fails and the rasterisers leave the surface untouched. -/
def trivOracles : Oracles :=
  ⟨fun _ => .error .decodeError, fun _ _ _ s => s, fun _ _ _ s => s,
   fun _ _ _ _ _ _ s => s⟩

theorem Pixel.over_transparent (p : Pixel) : Pixel.over p Pixel.transparent = p := by
  simp [Pixel.over, Pixel.transparent]

theorem Pixel.transparent_over (p : Pixel) : Pixel.over Pixel.transparent p = p := by
  simp [Pixel.over, Pixel.transparent, Nat.mul_div_cancel]

theorem Pixel.over_of_opaque (s d : Pixel) (h : s.a = 255) : Pixel.over s d = s := by
  cases s
  simp_all [Pixel.over]

/-- The selection invariant that the engine does maintain: a marked
rectangle is only ever present together with a floating selection
(`cut_selection` is the only engine method that sets `_selection_box`,
and it installs the float in the same call). -/
def SelInv (s : ProcState) : Prop :=
  s.selection_box.isSome = true → s.floating_selection_data.isSome = true

theorem selInv_clear (s : ProcState) : SelInv (clear_floating_selection s) := by
  intro h
  simp [clear_floating_selection] at h

theorem selInv_paste (s : ProcState) (hs : SelInv s) : SelInv (paste_selection s) := by
  unfold paste_selection
  split
  · exact selInv_clear _
  · exact hs

theorem selInv_save (s : ProcState) (hs : SelInv s) : SelInv (save_state s) := by
  unfold save_state
  split
  · exact hs
  · exact hs

theorem selInv_undo (s : ProcState) (hs : SelInv s) : SelInv (undo s).2 := by
  unfold undo
  split
  · exact hs
  · exact selInv_clear _

theorem selInv_redo (s : ProcState) (hs : SelInv s) : SelInv (redo s).2 := by
  unfold redo
  split
  · exact hs
  · exact selInv_clear _

theorem selInv_create_blank (w h : Int) (c : Color) (s : ProcState) :
    SelInv (create_blank_image w h c s) := by
  intro hbox
  simp [create_blank_image, clear_floating_selection] at hbox

theorem selInv_load (d : String → Except LoadError Surface) (fp : String) (s : ProcState) :
    SelInv (match load_image d fp s with | .error (_, s1) => s1 | .ok s1 => s1) := by
  unfold load_image
  split
  · next heq =>
      split at heq
      · cases heq
        intro hbox
        simp [clear_floating_selection] at hbox
      · cases heq
  · next heq =>
      split at heq
      · cases heq
      · cases heq
        intro hbox
        simp [clear_floating_selection] at hbox

theorem selInv_start_crop (s : ProcState) (hs : SelInv s) : SelInv (start_crop s) := by
  intro hbox
  exact selInv_paste s hs hbox

theorem selInv_cancel_crop (s : ProcState) : SelInv (cancel_crop s) := by
  intro hbox
  simp [cancel_crop] at hbox

theorem selInv_apply_crop (s : ProcState) (hs : SelInv s) : SelInv (apply_crop s) := by
  unfold apply_crop
  split
  · exact selInv_cancel_crop _
  · exact hs

theorem selInv_cut (box : Option Rect) (s : ProcState) (hs : SelInv s) :
    SelInv (cut_selection box s) := by
  unfold cut_selection
  split
  · dsimp only
    split
    · exact selInv_save _ (selInv_paste _ hs)
    · intro hbox
      rfl
  · exact hs

theorem selInv_copy (box : Option Rect) (s : ProcState) (hs : SelInv s) :
    SelInv (copy_selection box s).2 := by
  unfold copy_selection
  split
  · dsimp only
    split
    · exact selInv_paste _ hs
    · exact selInv_paste _ hs
  · exact hs

theorem selInv_set_floating (surf : Surface) (x y : Int) (s : ProcState) :
    SelInv (set_floating_selection surf x y s) := by
  intro hbox
  rfl

theorem selInv_move_floating (x y : Int) (s : ProcState) (hs : SelInv s) :
    SelInv (move_floating_selection x y s) := by
  unfold move_floating_selection
  split
  · exact hs
  · exact hs

theorem selInv_set_brush_size (n : Int) (s : ProcState) (hs : SelInv s) :
    SelInv (set_brush_size n s) := by
  intro hbox
  exact selInv_paste s hs hbox

theorem selInv_set_brush_color (c : Color) (s : ProcState) (hs : SelInv s) :
    SelInv (set_brush_color c s) := by
  intro hbox
  exact selInv_paste s hs hbox

theorem selInv_draw_stroke (O : Oracles) (pts : List (Int × Int)) (s : ProcState)
    (hs : SelInv s) : SelInv (draw_brush_stroke O pts s) := by
  unfold draw_brush_stroke
  split
  · split
    · exact hs
    · exact hs
  · exact hs

theorem selInv_draw_dab (O : Oracles) (p : Int × Int) (s : ProcState) (hs : SelInv s) :
    SelInv (draw_brush_dab O p s) := by
  unfold draw_brush_dab
  split
  · intro hbox
    exact selInv_save s hs hbox
  · exact hs

theorem selInv_add_text (O : Oracles) (t : String) (x y : Int) (fp : Option String)
    (s : ProcState) (hs : SelInv s) : SelInv (add_text O t x y fp s) := by
  unfold add_text
  split
  · exact hs
  · dsimp only
    split
    · exact selInv_save _ (selInv_paste _ hs)
    · intro hbox
      exact selInv_save _ (selInv_paste _ hs) hbox

theorem selInv_save_image (fp : String) (s : ProcState) (hs : SelInv s) :
    SelInv (save_image fp s) := by
  unfold save_image
  split
  · exact hs
  · intro hbox
    exact selInv_paste _ hs hbox

theorem selInv_resize (w h : Int) (a : String × String) (c : Color) (s : ProcState)
    (hs : SelInv s) : SelInv (resize_canvas w h a c s) := by
  unfold resize_canvas
  split
  · exact hs
  · dsimp only
    split
    · exact selInv_save _ (selInv_paste _ hs)
    · intro hbox
      exact selInv_save _ (selInv_paste _ hs) hbox

theorem selInv_step (O : Oracles) (op : EngineOp) (s : ProcState) (hs : SelInv s) :
    SelInv (stepOp O op s) := by
  cases op with
  | createBlank w h c => exact selInv_create_blank w h c s
  | loadImage fp => exact selInv_load O.decode fp s
  | saveState => exact selInv_save s hs
  | undoOp => exact selInv_undo s hs
  | redoOp => exact selInv_redo s hs
  | startCrop => exact selInv_start_crop s hs
  | cancelCrop => exact selInv_cancel_crop s
  | applyCrop => exact selInv_apply_crop s hs
  | cutSelection box => exact selInv_cut box s hs
  | copySelection box => exact selInv_copy box s hs
  | setFloating surf x y => exact selInv_set_floating surf x y s
  | pasteSelection => exact selInv_paste s hs
  | clearFloating => exact selInv_clear s
  | moveFloating x y => exact selInv_move_floating x y s hs
  | setBrushSize n => exact selInv_set_brush_size n s hs
  | setBrushColor c => exact selInv_set_brush_color c s hs
  | setTextSize n => exact hs
  | startDrawing => exact selInv_save s hs
  | drawStroke pts => exact selInv_draw_stroke O pts s hs
  | drawDab p => exact selInv_draw_dab O p s hs
  | setFontPath fp => exact hs
  | addText t x y fp => exact selInv_add_text O t x y fp s hs
  | saveImage fp => exact selInv_save_image fp s hs
  | resizeCanvas w h a c => exact selInv_resize w h a c s hs

theorem selInv_runOps (O : Oracles) (ops : List EngineOp) (s : ProcState) (hs : SelInv s) :
    SelInv (runOps O ops s) := by
  induction ops generalizing s with
  | nil => exact hs
  | cons op ops ih => exact ih (stepOp O op s) (selInv_step O op s hs)

/-- C2, counterexample: the mutual-exclusion claim is false as stated.
After `create_blank_image(4, 4, white)` followed by
`cut_selection((1, 1, 2, 2))` — a legal engine operation sequence — both
`_selection_box` and `_floating_selection_data` are present at once,
because `cut_selection` stores the box and installs the float in the
same call. -/
theorem selection_mutual_exclusion_cex :
    (runOps trivOracles
        [EngineOp.createBlank 4 4 (255, 255, 255, 255),
         EngineOp.cutSelection (some (1, 1, 2, 2))] initState).selection_box.isSome = true ∧
    (runOps trivOracles
        [EngineOp.createBlank 4 4 (255, 255, 255, 255),
         EngineOp.cutSelection (some (1, 1, 2, 2))] initState).floating_selection_data.isSome
      = true := by
  constructor
  · rfl
  · rfl

/-- C2 (amended): Marked and Floating are not mutually exclusive —
`cut_selection` retains the marked rectangle alongside the float it
creates.  What every engine operation sequence does maintain is the
one-directional invariant: whenever a marked rectangle
(`_selection_box`) is present, a floating selection
(`_floating_selection_data`) is present as well. -/
theorem selection_marked_implies_floating (O : Oracles) (ops : List EngineOp)
    (hbox : (runOps O ops initState).selection_box.isSome = true) :
    (runOps O ops initState).floating_selection_data.isSome = true :=
  selInv_runOps O ops initState (fun h => by simp [initState] at h) hbox

/-- C2 witness: the amended invariant applied to a concrete sequence
that ends with a marked rectangle present. -/
theorem selection_marked_implies_floating_witness :
    (runOps trivOracles
        [EngineOp.createBlank 2 2 (255, 255, 255, 255),
         EngineOp.cutSelection (some (0, 0, 1, 1))] initState).selection_box.isSome = true ∧
    (runOps trivOracles
        [EngineOp.createBlank 2 2 (255, 255, 255, 255),
         EngineOp.cutSelection (some (0, 0, 1, 1))] initState).floating_selection_data.isSome
      = true :=
  ⟨rfl, selection_marked_implies_floating trivOracles
    [EngineOp.createBlank 2 2 (255, 255, 255, 255),
     EngineOp.cutSelection (some (0, 0, 1, 1))] rfl⟩

/-- C3, counterexample: a failed `load_image` does not preserve the
whole prior state.  With a floating selection present and a decoder
that fails (absent file), the state the exception propagates out of has
the floating selection cleared, because `clear_floating_selection()`
runs before the fallible decode. -/
theorem load_failure_preserves_state_cex :
    (stepOp trivOracles (EngineOp.loadImage "missing.png")
        { initState with
          floating_selection_data := some (blankSurface 1 1)
          floating_selection_position := some (0, 0) }).floating_selection_data = none ∧
    ({ initState with
       floating_selection_data := some (blankSurface 1 1)
       floating_selection_position := some (0, 0) } :
        ProcState).floating_selection_data.isSome = true :=
  ⟨rfl, rfl⟩

/-- C3 (amended): on every failing path of `load_image` (decode or
conversion failure) the authoritative surface, the original surface,
`image_path` and both history stacks are preserved unchanged, but the
floating selection and the marked rectangle are cleared, since
`clear_floating_selection()` runs before the fallible pipeline. -/
theorem load_failure_state_amended
    (decode : String → Except LoadError Surface) (fp : String) (s s1 : ProcState)
    (e : LoadError) (h : load_image decode fp s = .error (e, s1)) :
    s1.current_surface = s.current_surface ∧
    s1.original_surface = s.original_surface ∧
    s1.image_path = s.image_path ∧
    s1.undo_stack = s.undo_stack ∧
    s1.redo_stack = s.redo_stack ∧
    s1.floating_selection_data = none ∧
    s1.selection_box = none ∧
    s1.floating_selection_position = none := by
  unfold load_image at h
  cases hd : decode fp with
  | error e2 =>
      rw [hd] at h
      simp only [Except.error.injEq, Prod.mk.injEq] at h
      rw [← h.2]
      simp [clear_floating_selection]
  | ok surf =>
      rw [hd] at h
      simp at h

/-- C3 witness: the amended statement at a concrete always-failing
decoder and the initial state. -/
theorem load_failure_state_amended_witness :
    (clear_floating_selection initState).current_surface = initState.current_surface ∧
    (clear_floating_selection initState).original_surface = initState.original_surface ∧
    (clear_floating_selection initState).image_path = initState.image_path ∧
    (clear_floating_selection initState).undo_stack = initState.undo_stack ∧
    (clear_floating_selection initState).redo_stack = initState.redo_stack ∧
    (clear_floating_selection initState).floating_selection_data = none ∧
    (clear_floating_selection initState).selection_box = none ∧
    (clear_floating_selection initState).floating_selection_position = none :=
  load_failure_state_amended (fun _ => .error .conversionError) "broken.bmp" initState
    (clear_floating_selection initState) .conversionError rfl

/-- C4, counterexample: a successful `undo` does not reset crop-mode
state.  From a state in crop mode with a non-empty undo stack, `undo`
returns `True` yet leaves `_is_cropping` set (and the pan offset
untouched): `undo` only calls `clear_floating_selection`. -/
theorem undo_clears_crop_cex :
    (undo { initState with
            is_cropping := true
            crop_pan_offset := (3, 4)
            undo_stack := [some (blankSurface 1 1)] }).1 = true ∧
    (undo { initState with
            is_cropping := true
            crop_pan_offset := (3, 4)
            undo_stack := [some (blankSurface 1 1)] }).2.is_cropping = true ∧
    (undo { initState with
            is_cropping := true
            crop_pan_offset := (3, 4)
            undo_stack := [some (blankSurface 1 1)] }).2.crop_pan_offset = (3, 4) :=
  ⟨rfl, rfl, rfl⟩

/-- C4 (amended): whenever `undo()` or `redo()` returns `True`, the
floating selection, its position and the marked rectangle are cleared
by that call (via `clear_floating_selection`), but the crop-mode state
— the `is_cropping` flag and the pan offset — is left unchanged. -/
theorem undo_redo_clear_selection_amended (s : ProcState) :
    (s.undo_stack ≠ [] →
      (undo s).1 = true ∧
      (undo s).2.floating_selection_data = none ∧
      (undo s).2.selection_box = none ∧
      (undo s).2.floating_selection_position = none ∧
      (undo s).2.is_cropping = s.is_cropping ∧
      (undo s).2.crop_pan_offset = s.crop_pan_offset) ∧
    (s.redo_stack ≠ [] →
      (redo s).1 = true ∧
      (redo s).2.floating_selection_data = none ∧
      (redo s).2.selection_box = none ∧
      (redo s).2.floating_selection_position = none ∧
      (redo s).2.is_cropping = s.is_cropping ∧
      (redo s).2.crop_pan_offset = s.crop_pan_offset) := by
  constructor
  · intro h
    have h1 : s.undo_stack.isEmpty = false := by
      cases hu : s.undo_stack with
      | nil => exact absurd hu h
      | cons a l => rfl
    simp [undo, h1, clear_floating_selection]
  · intro h
    have h1 : s.redo_stack.isEmpty = false := by
      cases hu : s.redo_stack with
      | nil => exact absurd hu h
      | cons a l => rfl
    simp [redo, h1, clear_floating_selection]

/-- C4 witness: the amended statement at a concrete state with both
stacks non-empty. -/
theorem undo_redo_clear_selection_amended_witness :
    (undo { initState with
            undo_stack := [some (blankSurface 1 1)]
            redo_stack := [some (blankSurface 1 1)] }).1 = true ∧
    (redo { initState with
            undo_stack := [some (blankSurface 1 1)]
            redo_stack := [some (blankSurface 1 1)] }).1 = true := by
  have h := undo_redo_clear_selection_amended
    { initState with
      undo_stack := [some (blankSurface 1 1)]
      redo_stack := [some (blankSurface 1 1)] }
  exact ⟨(h.1 (List.cons_ne_nil _ _)).1, (h.2 (List.cons_ne_nil _ _)).1⟩

/-- C9: for every sequence of assignments to `ToolManager.current_tool`
starting from the initial `select`, the current tool stays a member of
`VALID_TOOLS`, and assigning any string outside that set leaves the
manager unchanged (the setter is total: it logs and returns, never
raising). -/
theorem tool_manager_valid :
    (∀ ts : List String,
      (ts.foldl (fun m t => set_current_tool t m) ToolManager.init).current_tool
        ∈ VALID_TOOLS) ∧
    (∀ (t : String) (m : ToolManager), t ∉ VALID_TOOLS → set_current_tool t m = m) := by
  constructor
  · have key : ∀ (ts : List String) (m : ToolManager),
        m.current_tool ∈ VALID_TOOLS →
        (ts.foldl (fun m t => set_current_tool t m) m).current_tool ∈ VALID_TOOLS := by
      intro ts
      induction ts with
      | nil => exact fun m hm => hm
      | cons t ts ih =>
          intro m hm
          refine ih _ ?_
          show (set_current_tool t m).current_tool ∈ VALID_TOOLS
          unfold set_current_tool
          split
          · next ht => exact ht
          · exact hm
    intro ts
    exact key ts ToolManager.init (by decide)
  · intro t m ht
    unfold set_current_tool
    simp [ht]

/-- C9 witness: assigning the invalid tool name `"eraser"` leaves a
concrete manager unchanged. -/
theorem tool_manager_valid_witness :
    "eraser" ∉ VALID_TOOLS ∧ set_current_tool "eraser" ⟨"crop"⟩ = ⟨"crop"⟩ :=
  ⟨by decide, tool_manager_valid.2 "eraser" ⟨"crop"⟩ (by decide)⟩

theorem paste_selection_no_float (s : ProcState) (hf : s.floating_selection_data = none) :
    paste_selection s = s := by
  unfold paste_selection
  split
  · simp_all
  · rfl

theorem save_state_current (s : ProcState) :
    (save_state s).current_surface = s.current_surface := by
  unfold save_state
  split
  · rfl
  · rfl

theorem save_state_float (s : ProcState) :
    (save_state s).floating_selection_data = s.floating_selection_data ∧
    (save_state s).floating_selection_position = s.floating_selection_position := by
  unfold save_state
  split
  · exact ⟨rfl, rfl⟩
  · exact ⟨rfl, rfl⟩

theorem paste_selection_some (s : ProcState) (cur fd : Surface) (x y : Int)
    (hc : s.current_surface = some cur) (hf : s.floating_selection_data = some fd)
    (hp : s.floating_selection_position = some (x, y)) :
    paste_selection s
      = clear_floating_selection { s with current_surface := some (paintOver cur fd x y) } := by
  unfold paste_selection
  rw [hc, hf, hp]

theorem cut_selection_fields (s : ProcState) (cur : Surface) (x y w h : Int)
    (hc : s.current_surface = some cur) (hf : s.floating_selection_data = none) :
    (cut_selection (some (x, y, w, h)) s).current_surface = some (clearRectOp cur x y w h) ∧
    (cut_selection (some (x, y, w, h)) s).floating_selection_data
      = some (paintOver (blankSurface w.toNat h.toNat) cur (-x) (-y)) ∧
    (cut_selection (some (x, y, w, h)) s).floating_selection_position = some (x, y) := by
  unfold cut_selection
  rw [hc]
  dsimp only
  rw [paste_selection_no_float s hf]
  have hs1 : (save_state s).current_surface = some cur := by rw [save_state_current, hc]
  rw [hs1]
  dsimp only
  exact ⟨rfl, rfl, rfl⟩

/-- C10: the brush setters commit a pending floating selection.  With a
float present, `set_brush_size` and `set_brush_color` composite it onto
the authoritative surface at its stored position and clear the
floating/marked selection state, besides storing the parameter; with no
float they leave the authoritative surface untouched; `set_text_size`
only ever stores the size. -/
theorem brush_setters_composite :
    (∀ (s : ProcState) (cur fd : Surface) (x y n : Int),
      s.current_surface = some cur → s.floating_selection_data = some fd →
      s.floating_selection_position = some (x, y) →
      (set_brush_size n s).current_surface = some (paintOver cur fd x y) ∧
      (set_brush_size n s).floating_selection_data = none ∧
      (set_brush_size n s).selection_box = none ∧
      (set_brush_size n s).floating_selection_position = none ∧
      (set_brush_size n s).brush_size = n) ∧
    (∀ (s : ProcState) (cur fd : Surface) (x y : Int) (c : Color),
      s.current_surface = some cur → s.floating_selection_data = some fd →
      s.floating_selection_position = some (x, y) →
      (set_brush_color c s).current_surface = some (paintOver cur fd x y) ∧
      (set_brush_color c s).floating_selection_data = none ∧
      (set_brush_color c s).selection_box = none ∧
      (set_brush_color c s).floating_selection_position = none ∧
      (set_brush_color c s).brush_color = c) ∧
    (∀ (s : ProcState) (n : Int) (c : Color), s.floating_selection_data = none →
      (set_brush_size n s).current_surface = s.current_surface ∧
      (set_brush_color c s).current_surface = s.current_surface) ∧
    (∀ (s : ProcState) (n : Int), set_text_size n s = { s with text_size := n }) := by
  refine ⟨?_, ?_, ?_, fun s n => rfl⟩
  · intro s cur fd x y n hc hf hp
    simp [set_brush_size, paste_selection, hc, hf, hp, clear_floating_selection]
  · intro s cur fd x y c hc hf hp
    simp [set_brush_color, paste_selection, hc, hf, hp, clear_floating_selection]
  · intro s n c hf
    rw [show (set_brush_size n s).current_surface = (paste_selection s).current_surface
        from rfl,
      show (set_brush_color c s).current_surface = (paste_selection s).current_surface
        from rfl,
      paste_selection_no_float s hf]
    exact ⟨rfl, rfl⟩

/-- C10 witness: the three parts applied to a concrete state holding a
1×1 float over a 1×1 white surface, and to the float-free initial
state. -/
theorem brush_setters_composite_witness :
    (set_brush_size 3
        { initState with
          current_surface := some (fillSurface 1 1 (255, 255, 255, 255))
          floating_selection_data := some (fillSurface 1 1 (0, 0, 0, 255))
          floating_selection_position := some (0, 0) }).current_surface
      = some (paintOver (fillSurface 1 1 (255, 255, 255, 255))
          (fillSurface 1 1 (0, 0, 0, 255)) 0 0) ∧
    (set_brush_color (0, 255, 0, 255)
        { initState with
          current_surface := some (fillSurface 1 1 (255, 255, 255, 255))
          floating_selection_data := some (fillSurface 1 1 (0, 0, 0, 255))
          floating_selection_position := some (0, 0) }).floating_selection_data = none ∧
    (set_brush_size 3 initState).current_surface = initState.current_surface ∧
    set_text_size 7 initState = { initState with text_size := 7 } :=
  ⟨(brush_setters_composite.1 _ _ _ 0 0 3 rfl rfl rfl).1,
   (brush_setters_composite.2.1 _ _ _ 0 0 (0, 255, 0, 255) rfl rfl rfl).2.1,
   (brush_setters_composite.2.2.1 initState 3 (0, 0, 0, 0) rfl).1,
   brush_setters_composite.2.2.2 initState 7⟩

/-- C7: with crop mode active, a marked integer rect `(x, y, w, h)`
with `w, h ≥ 1` fully inside the image and pan offset `(0, 0)`,
`apply_crop` installs an authoritative surface of exactly size
`(w, h)` whose pixel `(i, j)` is the pre-crop pixel `(x + i, y + j)`;
and with crop mode inactive or no marked rect it mutates nothing. -/
theorem apply_crop_correct (s : ProcState) (cur : Surface) (x y w h : Int)
    (hc : s.current_surface = some cur)
    (hbox : s.selection_box = some (x, y, w, h))
    (hcrop : s.is_cropping = true)
    (hpan : s.crop_pan_offset = (0, 0))
    (hx : 0 ≤ x) (hy : 0 ≤ y) (hw : 1 ≤ w) (hh : 1 ≤ h)
    (hxw : x + w ≤ (cur.width : Int)) (hyh : y + h ≤ (cur.height : Int)) :
    (∃ res : Surface,
      (apply_crop s).current_surface = some res ∧
      (res.width : Int) = w ∧ (res.height : Int) = h ∧
      ∀ i j : Int, 0 ≤ i → i < w → 0 ≤ j → j < h →
        res.pix i j = cur.pix (x + i) (y + j)) ∧
    (∀ t : ProcState, t.is_cropping = false ∨ t.selection_box = none →
      apply_crop t = t) := by
  constructor
  · refine ⟨paintOver (blankSurface w.toNat h.toNat) cur (-x + 0) (-y + 0), ?_, ?_, ?_, ?_⟩
    · simp [apply_crop, hc, hbox, hcrop, hpan, cancel_crop]
    · show ((w.toNat : Nat) : Int) = w
      omega
    · show ((h.toNat : Nat) : Int) = h
      omega
    · intro i j hi hiw hj hjh
      have hcond : 0 ≤ i + x ∧ i + x < (cur.width : Int) ∧ 0 ≤ j + y ∧
          j + y < (cur.height : Int) := by omega
      show Pixel.over (cur.sample (i - (-x + 0)) (j - (-y + 0))) Pixel.transparent
        = cur.pix (x + i) (y + j)
      have hargx : i - (-x + 0) = i + x := by ring
      have hargy : j - (-y + 0) = j + y := by ring
      rw [hargx, hargy, Pixel.over_transparent, Surface.sample, if_pos hcond,
        Int.add_comm i x, Int.add_comm j y]
  · intro t ht
    unfold apply_crop
    split
    · exfalso
      rcases ht with h1 | h2 <;> simp_all
    · rfl

/-- C7 witness: cropping a 3×3 white surface to the rect `(1, 1, 2, 2)`
from a crop-mode state. -/
theorem apply_crop_correct_witness :
    ∃ res : Surface,
      (apply_crop
          { initState with
            current_surface := some (fillSurface 3 3 (255, 255, 255, 255))
            selection_box := some (1, 1, 2, 2)
            is_cropping := true }).current_surface = some res ∧
      (res.width : Int) = 2 ∧ (res.height : Int) = 2 ∧
      ∀ i j : Int, 0 ≤ i → i < 2 → 0 ≤ j → j < 2 →
        res.pix i j = (fillSurface 3 3 (255, 255, 255, 255)).pix (1 + i) (1 + j) :=
  (apply_crop_correct _ _ 1 1 2 2 rfl rfl rfl rfl (by decide) (by decide) (by decide)
    (by decide) (by decide) (by decide)).1

/-- C6: for an in-bounds integer rect on a surface that is fully opaque
inside the rect and with no pre-existing float, `cut_selection`
immediately followed by `paste_selection` leaves the authoritative
surface byte-identical to its pre-cut content: extraction, clearing to
transparent and alpha-over reinsertion at the same position compose to
the identity. -/
theorem cut_paste_roundtrip (s : ProcState) (cur : Surface) (x y w h : Int)
    (hc : s.current_surface = some cur) (hf : s.floating_selection_data = none)
    (hx : 0 ≤ x) (hy : 0 ≤ y) (hw : 0 ≤ w) (hh : 0 ≤ h)
    (hxw : x + w ≤ (cur.width : Int)) (hyh : y + h ≤ (cur.height : Int))
    (hfull : ∀ i j : Int, x ≤ i → i < x + w → y ≤ j → j < y + h →
      (cur.pix i j).a = 255) :
    ∃ res : Surface,
      (paste_selection (cut_selection (some (x, y, w, h)) s)).current_surface = some res ∧
      Surface.equiv res cur := by
  have hcut := cut_selection_fields s cur x y w h hc hf
  have hkey : (paste_selection (cut_selection (some (x, y, w, h)) s)).current_surface
      = some (paintOver (clearRectOp cur x y w h)
          (paintOver (blankSurface w.toNat h.toNat) cur (-x) (-y)) x y) := by
    rw [paste_selection_some _ _ _ x y hcut.1 hcut.2.1 hcut.2.2]
    rfl
  have hfdw : (((paintOver (blankSurface w.toNat h.toNat) cur (-x) (-y)).width : Nat) : Int)
      = w := by
    show ((w.toNat : Nat) : Int) = w
    omega
  have hfdh : (((paintOver (blankSurface w.toNat h.toNat) cur (-x) (-y)).height : Nat) : Int)
      = h := by
    show ((h.toNat : Nat) : Int) = h
    omega
  refine ⟨_, hkey, rfl, rfl, ?_⟩
  intro i j hi hiw hj hjh
  show Pixel.over
      ((paintOver (blankSurface w.toNat h.toNat) cur (-x) (-y)).sample (i - x) (j - y))
      ((clearRectOp cur x y w h).pix i j) = cur.pix i j
  by_cases hin : x ≤ i ∧ i < x + w ∧ y ≤ j ∧ j < y + h
  · have h1 : (paintOver (blankSurface w.toNat h.toNat) cur (-x) (-y)).sample
        (i - x) (j - y) = cur.pix i j := by
      have hcond : 0 ≤ i - x ∧
          i - x < (((paintOver (blankSurface w.toNat h.toNat) cur (-x) (-y)).width : Nat) : Int) ∧
          0 ≤ j - y ∧
          j - y < (((paintOver (blankSurface w.toNat h.toNat) cur (-x) (-y)).height : Nat) : Int) := by
        rw [hfdw, hfdh]
        omega
      rw [Surface.sample, if_pos hcond]
      show Pixel.over (cur.sample (i - x - -x) (j - y - -y)) Pixel.transparent = cur.pix i j
      have hax : i - x - -x = i := by ring
      have hay : j - y - -y = j := by ring
      rw [hax, hay, Pixel.over_transparent, Surface.sample, if_pos (by omega)]
    have h2 : (clearRectOp cur x y w h).pix i j = Pixel.transparent := by
      show (if x ≤ i ∧ i < x + w ∧ y ≤ j ∧ j < y + h then Pixel.transparent else cur.pix i j)
        = Pixel.transparent
      rw [if_pos hin]
    rw [h1, h2, Pixel.over_transparent]
  · have h1 : (paintOver (blankSurface w.toNat h.toNat) cur (-x) (-y)).sample
        (i - x) (j - y) = Pixel.transparent := by
      rw [Surface.sample, if_neg]
      intro hcond
      rw [hfdw, hfdh] at hcond
      exact hin (by omega)
    have h2 : (clearRectOp cur x y w h).pix i j = cur.pix i j := by
      show (if x ≤ i ∧ i < x + w ∧ y ≤ j ∧ j < y + h then Pixel.transparent else cur.pix i j)
        = cur.pix i j
      rw [if_neg hin]
    rw [h1, h2, Pixel.transparent_over]

/-- C6 witness: the spec's concrete scenario — cutting `(1, 1, 2, 2)`
out of a 4×4 opaque white surface and pasting it back restores the
surface byte-for-byte. -/
theorem cut_paste_roundtrip_witness :
    ∃ res : Surface,
      (paste_selection (cut_selection (some (1, 1, 2, 2))
          { initState with
            current_surface := some (fillSurface 4 4 (255, 255, 255, 255)) })).current_surface
        = some res ∧
      Surface.equiv res (fillSurface 4 4 (255, 255, 255, 255)) :=
  cut_paste_roundtrip _ _ 1 1 2 2 rfl rfl (by decide) (by decide) (by decide) (by decide)
    (by decide) (by decide) (fun i j _ _ _ _ => rfl)

theorem paste_selection_current_some (s : ProcState) (cur : Surface)
    (hc : s.current_surface = some cur) :
    ∃ cur2 : Surface, (paste_selection s).current_surface = some cur2 := by
  unfold paste_selection
  split
  · exact ⟨_, rfl⟩
  · exact ⟨cur, hc⟩

/-- C8, counterexample: resizing does not preserve every original pixel.
A 1×1 fully transparent surface resized to 2×2 with anchor
`("left", "top")` and opaque white fill has its pixel `(0, 0)` turned
white: the old surface is painted with `OPERATOR_OVER` onto the fill,
so non-opaque pixels blend with `fill_color`. -/
theorem resize_preserves_original_cex :
    (resize_canvas 2 2 ("left", "top") (255, 255, 255, 255)
        { initState with current_surface := some (blankSurface 1 1) }).current_surface.map
        (fun r => r.pix 0 0) = some ⟨255, 255, 255, 255⟩ ∧
    (blankSurface 1 1).pix 0 0 = Pixel.transparent ∧
    (⟨255, 255, 255, 255⟩ : Pixel) ≠ Pixel.transparent :=
  ⟨by decide, rfl, by decide⟩

/-- C8 (amended): `resize_canvas` clamps the requested dimensions to a
minimum of 1 pixel (not an error), and the placement offset is computed
independently per axis — 0 for a `left`/`top` anchor component,
`new - old` for `right`/`bottom`, and `(new - old)` floor-divided by 2
otherwise.  With anchor `(left, top)` and a strictly larger target
size, every *fully opaque* original pixel is preserved unchanged at the
same coordinates (non-opaque pixels are alpha-composited OVER the fill
and may change), and the added border is filled with `fill_color`. -/
theorem resize_canvas_amended :
    (∀ old new : Int,
      compute_anchor_offset "left" old new = 0 ∧
      compute_anchor_offset "top" old new = 0 ∧
      compute_anchor_offset "right" old new = new - old ∧
      compute_anchor_offset "bottom" old new = new - old) ∧
    (∀ (a : String) (old new : Int),
      a ≠ "left" → a ≠ "top" → a ≠ "right" → a ≠ "bottom" →
      compute_anchor_offset a old new = (new - old).fdiv 2) ∧
    (∀ (s : ProcState) (cur : Surface) (nw nh : Int) (anchor : String × String)
      (fill : Color), s.current_surface = some cur →
      ∃ res : Surface, (resize_canvas nw nh anchor fill s).current_surface = some res ∧
        res.width = (max 1 nw).toNat ∧ res.height = (max 1 nh).toNat) ∧
    (∀ (s : ProcState) (cur : Surface) (nw nh : Int) (fill : Color),
      s.current_surface = some cur → s.floating_selection_data = none →
      (cur.width : Int) < nw → (cur.height : Int) < nh →
      ∃ res : Surface,
        (resize_canvas nw nh ("left", "top") fill s).current_surface = some res ∧
        (res.width : Int) = nw ∧ (res.height : Int) = nh ∧
        (∀ i j : Int, 0 ≤ i → i < (cur.width : Int) → 0 ≤ j → j < (cur.height : Int) →
          (cur.pix i j).a = 255 → res.pix i j = cur.pix i j) ∧
        (∀ i j : Int, 0 ≤ i → i < nw → 0 ≤ j → j < nh →
          ((cur.width : Int) ≤ i ∨ (cur.height : Int) ≤ j) →
          res.pix i j = colorToPixel fill)) := by
  refine ⟨?_, ?_, ?_, ?_⟩
  · intro old new
    refine ⟨?_, ?_, ?_, ?_⟩ <;>
      · unfold compute_anchor_offset
        first
        | rw [if_pos (by decide)]
        | rw [if_neg (by decide), if_pos (by decide)]
  · intro a old new h1 h2 h3 h4
    unfold compute_anchor_offset
    rw [if_neg (by simp [h1, h2]), if_neg (by simp [h3, h4])]
  · intro s cur nw nh anchor fill hc
    obtain ⟨cur2, hcur2⟩ := paste_selection_current_some s cur hc
    have hs1 : (save_state (paste_selection s)).current_surface = some cur2 := by
      rw [save_state_current]
      exact hcur2
    unfold resize_canvas
    rw [hc]
    dsimp only
    rw [hs1]
    exact ⟨_, rfl, rfl, rfl⟩
  · intro s cur nw nh fill hc hf hwlt hhlt
    have hpaste : paste_selection s = s := paste_selection_no_float s hf
    have hs1 : (save_state (paste_selection s)).current_surface = some cur := by
      rw [save_state_current, hpaste, hc]
    unfold resize_canvas
    rw [hc]
    dsimp only
    rw [hs1]
    dsimp only
    have hox : compute_anchor_offset "left" (cur.width : Int) (max 1 nw) = 0 := by
      unfold compute_anchor_offset
      rw [if_pos (by decide)]
    have hoy : compute_anchor_offset "top" (cur.height : Int) (max 1 nh) = 0 := by
      unfold compute_anchor_offset
      rw [if_pos (by decide)]
    rw [hox, hoy]
    refine ⟨_, rfl, ?_, ?_, ?_, ?_⟩
    · show (((max 1 nw).toNat : Nat) : Int) = nw
      omega
    · show (((max 1 nh).toNat : Nat) : Int) = nh
      omega
    · intro i j hi hiw hj hjh hop
      show Pixel.over (cur.sample (i - 0) (j - 0))
        ((fillSurface (max 1 nw).toNat (max 1 nh).toNat fill).pix i j) = cur.pix i j
      rw [sub_zero, sub_zero, Surface.sample, if_pos ⟨hi, hiw, hj, hjh⟩,
        Pixel.over_of_opaque _ _ hop]
    · intro i j hi hiw hj hjh hout
      show Pixel.over (cur.sample (i - 0) (j - 0))
        ((fillSurface (max 1 nw).toNat (max 1 nh).toNat fill).pix i j) = colorToPixel fill
      rw [sub_zero, sub_zero, Surface.sample, if_neg (by omega), Pixel.transparent_over]
      rfl

/-- C8 witness: growing a 1×1 opaque white surface to 2×2 with anchor
`(left, top)` and opaque blue fill. -/
theorem resize_canvas_amended_witness :
    ∃ res : Surface,
      (resize_canvas 2 2 ("left", "top") (0, 0, 255, 255)
          { initState with
            current_surface := some (fillSurface 1 1 (255, 255, 255, 255)) }).current_surface
        = some res ∧
      (res.width : Int) = 2 ∧ (res.height : Int) = 2 ∧
      (∀ i j : Int, 0 ≤ i → i < ((fillSurface 1 1 (255, 255, 255, 255)).width : Int) →
        0 ≤ j → j < ((fillSurface 1 1 (255, 255, 255, 255)).height : Int) →
        ((fillSurface 1 1 (255, 255, 255, 255)).pix i j).a = 255 →
        res.pix i j = (fillSurface 1 1 (255, 255, 255, 255)).pix i j) ∧
      (∀ i j : Int, 0 ≤ i → i < 2 → 0 ≤ j → j < 2 →
        (((fillSurface 1 1 (255, 255, 255, 255)).width : Int) ≤ i ∨
          ((fillSurface 1 1 (255, 255, 255, 255)).height : Int) ≤ j) →
        res.pix i j = colorToPixel (0, 0, 255, 255)) :=
  resize_canvas_amended.2.2.2 _ _ 2 2 (0, 0, 255, 255) rfl rfl (by decide) (by decide)

/-- One undoable operation in the sense of the spec's §8 inverse law: a
`save_state` snapshot of the pre-mutation surface followed by a
mutation of the authoritative surface (the mutation itself is an
arbitrary surface transformation `f`). -/
def applyOp (f : Surface → Surface) (s : ProcState) : ProcState :=
  let s1 := save_state s
  { s1 with current_surface := s1.current_surface.map f }

/-- A sequence of undoable operations, applied left to right. -/
def opsApply : List (Surface → Surface) → ProcState → ProcState
  | [], s => s
  | f :: fs, s => opsApply fs (applyOp f s)

/-- The pre-mutation snapshots the sequence pushes, oldest first. -/
def chain (c : Surface) : List (Surface → Surface) → List Surface
  | [] => []
  | f :: fs => c :: chain (f c) fs

/-- The surface after the whole sequence. -/
def chainEnd (c : Surface) : List (Surface → Surface) → Surface
  | [] => c
  | f :: fs => chainEnd (f c) fs

/-- `undo()` iterated `n` times (state component). -/
def undoN : Nat → ProcState → ProcState
  | 0, s => s
  | n + 1, s => undoN n (undo s).2

/-- `redo()` iterated `n` times (state component). -/
def redoN : Nat → ProcState → ProcState
  | 0, s => s
  | n + 1, s => redoN n (redo s).2

theorem chain_length (c : Surface) (fs : List (Surface → Surface)) :
    (chain c fs).length = fs.length := by
  induction fs generalizing c with
  | nil => rfl
  | cons f fs ih => simp [chain, ih]

theorem chain_headD (c : Surface) (fs : List (Surface → Surface)) :
    (chain c fs).headD (chainEnd c fs) = c := by
  cases fs with
  | nil => rfl
  | cons f fs => rfl

theorem applyOp_current (f : Surface → Surface) (s : ProcState) (c : Surface)
    (hc : s.current_surface = some c) :
    (applyOp f s).current_surface = some (f c) := by
  show ((save_state s).current_surface.map f) = some (f c)
  rw [save_state_current, hc]
  rfl

theorem applyOp_undo_stack (f : Surface → Surface) (s : ProcState) (c : Surface)
    (hc : s.current_surface = some c) :
    (applyOp f s).undo_stack =
      if max_undo_steps < (s.undo_stack ++ [some c]).length
      then (s.undo_stack ++ [some c]).drop 1 else s.undo_stack ++ [some c] := by
  show (save_state s).undo_stack = _
  unfold save_state
  rw [hc]

theorem capPush_suffix (pre X : List (Option Surface)) (z : Option Surface)
    (hX : X.length + 1 ≤ max_undo_steps) :
    ∃ pre', (if max_undo_steps < ((pre ++ X) ++ [z]).length
             then ((pre ++ X) ++ [z]).drop 1 else (pre ++ X) ++ [z])
      = pre' ++ (X ++ [z]) := by
  by_cases hlen : max_undo_steps < ((pre ++ X) ++ [z]).length
  · refine ⟨pre.drop 1, ?_⟩
    rw [if_pos hlen]
    have hlen' := hlen
    simp only [List.length_append, List.length_cons, List.length_nil] at hlen'
    have hzero : 1 - pre.length = 0 := by
      unfold max_undo_steps at hX hlen'
      omega
    rw [List.append_assoc, List.drop_append_eq_append_drop, hzero, List.drop_zero]
  · exact ⟨pre, by rw [if_neg hlen, List.append_assoc]⟩

theorem opsApply_spec :
    ∀ (fs : List (Surface → Surface)) (s : ProcState) (c : Surface)
      (pre : List (Option Surface)) (suf : List Surface),
      s.current_surface = some c → s.undo_stack = pre ++ suf.map some →
      suf.length + fs.length ≤ max_undo_steps →
      (opsApply fs s).current_surface = some (chainEnd c fs) ∧
      ∃ rest, (opsApply fs s).undo_stack = rest ++ (suf ++ chain c fs).map some := by
  intro fs
  induction fs with
  | nil =>
      intro s c pre suf hc hstk _
      exact ⟨hc, pre, by simpa [chain] using hstk⟩
  | cons f fs ih =>
      intro s c pre suf hc hstk hlen
      have hlen' : suf.length + (fs.length + 1) ≤ max_undo_steps := by
        simpa using hlen
      have hcur : (applyOp f s).current_surface = some (f c) := applyOp_current f s c hc
      have hstk1 := applyOp_undo_stack f s c hc
      rw [hstk] at hstk1
      obtain ⟨pre', hpre'⟩ := capPush_suffix pre (suf.map some) (some c)
        (by simp only [List.length_map]; omega)
      rw [hpre'] at hstk1
      have hstk2 : (applyOp f s).undo_stack = pre' ++ (suf ++ [c]).map some := by
        rw [hstk1]
        simp
      have hrec := ih (applyOp f s) (f c) pre' (suf ++ [c]) hcur hstk2
        (by simp only [List.length_append, List.length_cons, List.length_nil]; omega)
      refine ⟨hrec.1, ?_⟩
      obtain ⟨rest, hrest⟩ := hrec.2
      refine ⟨rest, ?_⟩
      show (opsApply fs (applyOp f s)).undo_stack = _
      rw [hrest]
      simp [chain]

theorem opsApply_length :
    ∀ (fs : List (Surface → Surface)) (s : ProcState) (c : Surface),
      s.current_surface = some c → s.undo_stack.length ≤ max_undo_steps →
      (opsApply fs s).undo_stack.length
        = min (s.undo_stack.length + fs.length) max_undo_steps := by
  intro fs
  induction fs with
  | nil =>
      intro s c hc hlen
      show s.undo_stack.length = _
      simp
      omega
  | cons f fs ih =>
      intro s c hc hlen
      have hstk1 := applyOp_undo_stack f s c hc
      have hlen1 : (applyOp f s).undo_stack.length
          = min (s.undo_stack.length + 1) max_undo_steps := by
        rw [hstk1]
        by_cases hcap : max_undo_steps < (s.undo_stack ++ [some c]).length
        · rw [if_pos hcap]
          rw [List.length_drop]
          simp only [List.length_append, List.length_cons, List.length_nil] at hcap ⊢
          omega
        · rw [if_neg hcap]
          simp only [List.length_append, List.length_cons, List.length_nil] at hcap ⊢
          omega
      have hrec := ih (applyOp f s) (f c) (applyOp_current f s c hc) (by rw [hlen1]; omega)
      show (opsApply fs (applyOp f s)).undo_stack.length = _
      rw [hrec, hlen1]
      simp only [List.length_cons]
      omega

theorem undo_step_eq (t : ProcState) (hne : t.undo_stack.isEmpty = false) :
    (undo t).2 = clear_floating_selection
      { t with
        redo_stack := t.redo_stack ++ [copy_surface t.current_surface]
        current_surface := t.undo_stack.getLastD none
        undo_stack := t.undo_stack.dropLast } := by
  unfold undo
  rw [hne]
  rfl

theorem redo_step_eq (t : ProcState) (hne : t.redo_stack.isEmpty = false) :
    (redo t).2 = clear_floating_selection
      { t with
        undo_stack := t.undo_stack ++ [copy_surface t.current_surface]
        current_surface := t.redo_stack.getLastD none
        redo_stack := t.redo_stack.dropLast } := by
  unfold redo
  rw [hne]
  rfl

theorem undoN_spec :
    ∀ (l : List Surface) (t : ProcState) (d : Surface) (rest : List (Option Surface)),
      t.current_surface = some d → t.undo_stack = rest ++ l.map some →
      (undoN l.length t).current_surface = some (l.headD d) ∧
      (undoN l.length t).undo_stack = rest ∧
      (undoN l.length t).redo_stack =
        t.redo_stack ++ (if l.isEmpty then [] else (d :: l.tail.reverse).map some) := by
  intro l
  induction l using List.reverseRecOn with
  | nil =>
      intro t d rest hc hstk
      refine ⟨hc, by simpa using hstk, ?_⟩
      show t.redo_stack = _
      simp
  | append_singleton l a ih =>
      intro t d rest hc hstk
      have hstk' : t.undo_stack = (rest ++ l.map some) ++ [some a] := by
        rw [hstk]
        simp
      have hne : t.undo_stack.isEmpty = false := by
        rw [hstk']
        simp
      have h2 := undo_step_eq t hne
      have h2c : (undo t).2.current_surface = some a := by
        rw [h2, hstk', List.getLastD_concat]
        rfl
      have h2u : (undo t).2.undo_stack = rest ++ l.map some := by
        rw [h2, hstk', List.dropLast_concat]
        rfl
      have h2r : (undo t).2.redo_stack = t.redo_stack ++ [some d] := by
        rw [h2, hc]
        rfl
      have hlen : (l ++ [a]).length = l.length + 1 := by simp
      rw [hlen]
      obtain ⟨ihc, ihu, ihr⟩ := ih (undo t).2 a rest h2c h2u
      refine ⟨?_, ?_, ?_⟩
      · show (undoN l.length (undo t).2).current_surface = _
        rw [ihc]
        cases l <;> simp
      · show (undoN l.length (undo t).2).undo_stack = _
        rw [ihu]
      · show (undoN l.length (undo t).2).redo_stack = _
        rw [ihr, h2r]
        cases l <;> simp

theorem redoN_spec :
    ∀ (l : List Surface) (t : ProcState) (d : Surface) (rest : List (Option Surface)),
      t.current_surface = some d → t.redo_stack = rest ++ l.map some →
      (redoN l.length t).current_surface = some (l.headD d) ∧
      (redoN l.length t).redo_stack = rest := by
  intro l
  induction l using List.reverseRecOn with
  | nil =>
      intro t d rest hc hstk
      exact ⟨hc, by simpa using hstk⟩
  | append_singleton l a ih =>
      intro t d rest hc hstk
      have hstk' : t.redo_stack = (rest ++ l.map some) ++ [some a] := by
        rw [hstk]
        simp
      have hne : t.redo_stack.isEmpty = false := by
        rw [hstk']
        simp
      have h2 := redo_step_eq t hne
      have h2c : (redo t).2.current_surface = some a := by
        rw [h2, hstk', List.getLastD_concat]
        rfl
      have h2r : (redo t).2.redo_stack = rest ++ l.map some := by
        rw [h2, hstk', List.dropLast_concat]
        rfl
      have hlen : (l ++ [a]).length = l.length + 1 := by simp
      rw [hlen]
      obtain ⟨ihc, ihr⟩ := ih (redo t).2 a rest h2c h2r
      refine ⟨?_, ?_⟩
      · show (redoN l.length (redo t).2).current_surface = _
        rw [ihc]
        cases l <;> simp
      · show (redoN l.length (redo t).2).redo_stack = _
        rw [ihr]

/-- C1: for any state holding a surface and any sequence of `n ≤ 20`
operations that each push a `save_state` snapshot before mutating the
authoritative surface, `undo()` applied `n` times restores the exact
pre-sequence surface, and `redo()` applied `n` times afterwards
restores the exact post-sequence surface. -/
theorem undo_redo_inverse_law (fs : List (Surface → Surface)) (s : ProcState) (c : Surface)
    (hc : s.current_surface = some c) (hlen : fs.length ≤ 20) :
    (opsApply fs s).current_surface = some (chainEnd c fs) ∧
    (undoN fs.length (opsApply fs s)).current_surface = some c ∧
    (redoN fs.length (undoN fs.length (opsApply fs s))).current_surface
      = some (chainEnd c fs) := by
  obtain ⟨hcur, rest, hstk⟩ := opsApply_spec fs s c s.undo_stack [] hc (by simp)
    (by simpa [max_undo_steps] using hlen)
  have hstk' : (opsApply fs s).undo_stack = rest ++ (chain c fs).map some := by
    rw [hstk]
    simp
  have hundo := undoN_spec (chain c fs) (opsApply fs s) (chainEnd c fs) rest hcur hstk'
  rw [chain_length] at hundo
  obtain ⟨huc, huu, hur⟩ := hundo
  have hucur : (undoN fs.length (opsApply fs s)).current_surface = some c := by
    rw [huc, chain_headD]
  refine ⟨hcur, hucur, ?_⟩
  cases fs with
  | nil => exact hucur
  | cons f fs' =>
      have hur' : (undoN (f :: fs').length (opsApply (f :: fs') s)).redo_stack
          = (opsApply (f :: fs') s).redo_stack ++
            ((chainEnd c (f :: fs') :: (chain c (f :: fs')).tail.reverse).map some) := by
        rw [hur]
        rfl
      have hredo := redoN_spec
        (chainEnd c (f :: fs') :: (chain c (f :: fs')).tail.reverse)
        (undoN (f :: fs').length (opsApply (f :: fs') s)) c
        (opsApply (f :: fs') s).redo_stack hucur hur'
      have hlrlen : (chainEnd c (f :: fs') :: (chain c (f :: fs')).tail.reverse).length
          = (f :: fs').length := by
        simp only [List.length_cons, List.length_reverse, List.length_tail, chain_length]
        omega
      rw [hlrlen] at hredo
      exact hredo.1

/-- C1 witness: two identity mutations on a blank 1×1 document, undone
twice and redone twice. -/
theorem undo_redo_inverse_law_witness :
    (opsApply [fun su : Surface => su, fun su : Surface => su]
        { initState with current_surface := some (blankSurface 1 1) }).current_surface
      = some (chainEnd (blankSurface 1 1) [fun su : Surface => su, fun su : Surface => su]) ∧
    (undoN 2 (opsApply [fun su : Surface => su, fun su : Surface => su]
        { initState with current_surface := some (blankSurface 1 1) })).current_surface
      = some (blankSurface 1 1) ∧
    (redoN 2 (undoN 2 (opsApply [fun su : Surface => su, fun su : Surface => su]
        { initState with current_surface := some (blankSurface 1 1) }))).current_surface
      = some (chainEnd (blankSurface 1 1) [fun su : Surface => su, fun su : Surface => su]) :=
  undo_redo_inverse_law [fun su => su, fun su => su]
    { initState with current_surface := some (blankSurface 1 1) } (blankSurface 1 1)
    rfl (by decide)

theorem undo_fst (t : ProcState) : (undo t).1 = !t.undo_stack.isEmpty := by
  unfold undo
  by_cases h : t.undo_stack.isEmpty = true
  · rw [if_pos h, h]
    rfl
  · have h' : t.undo_stack.isEmpty = false := by
      revert h
      cases t.undo_stack.isEmpty <;> simp
    rw [h']
    rfl

theorem undoN_stack_length :
    ∀ (k : Nat) (t : ProcState), k ≤ t.undo_stack.length →
      (undoN k t).undo_stack.length = t.undo_stack.length - k := by
  intro k
  induction k with
  | zero =>
      intro t _
      simp [undoN]
  | succ k ih =>
      intro t hk
      have hne : t.undo_stack.isEmpty = false := by
        cases h : t.undo_stack with
        | nil =>
            rw [h] at hk
            simp at hk
        | cons a l => rfl
      have h2u : (undo t).2.undo_stack = t.undo_stack.dropLast := by
        rw [undo_step_eq t hne]
        rfl
      show (undoN k (undo t).2).undo_stack.length = _
      rw [ih (undo t).2 (by rw [h2u, List.length_dropLast]; omega), h2u,
        List.length_dropLast]
      omega

/-- C5: the undo stack is capped at 20 snapshots with oldest-first
eviction.  Starting from a state respecting the cap, after any sequence
of more than 20 snapshot-pushing operations (no intervening
undo/redo), `undo()` succeeds on each of the first 20 calls, and the
21st consecutive call reports `False` and leaves the state untouched. -/
theorem history_cap_twenty (fs : List (Surface → Surface)) (s : ProcState) (c : Surface)
    (hc : s.current_surface = some c) (hn : 20 < fs.length)
    (hstk : s.undo_stack.length ≤ 20) :
    (∀ k : Nat, k < 20 → (undo (undoN k (opsApply fs s))).1 = true) ∧
    (undo (undoN 20 (opsApply fs s))).1 = false ∧
    (undo (undoN 20 (opsApply fs s))).2 = undoN 20 (opsApply fs s) := by
  have hT : (opsApply fs s).undo_stack.length = 20 := by
    rw [opsApply_length fs s c hc hstk]
    show min (s.undo_stack.length + fs.length) 20 = 20
    omega
  refine ⟨?_, ?_, ?_⟩
  · intro k hk
    have hklen : (undoN k (opsApply fs s)).undo_stack.length = 20 - k := by
      rw [undoN_stack_length k _ (by omega), hT]
    have hne : (undoN k (opsApply fs s)).undo_stack.isEmpty = false := by
      cases h : (undoN k (opsApply fs s)).undo_stack with
      | nil =>
          rw [h] at hklen
          simp at hklen
          omega
      | cons a l => rfl
    rw [undo_fst, hne]
    rfl
  · have hklen : (undoN 20 (opsApply fs s)).undo_stack.length = 0 := by
      rw [undoN_stack_length 20 _ (by omega), hT]
    have hnil : (undoN 20 (opsApply fs s)).undo_stack = [] :=
      List.length_eq_zero.mp hklen
    rw [undo_fst, hnil]
    rfl
  · have hklen : (undoN 20 (opsApply fs s)).undo_stack.length = 0 := by
      rw [undoN_stack_length 20 _ (by omega), hT]
    have hnil : (undoN 20 (opsApply fs s)).undo_stack = [] :=
      List.length_eq_zero.mp hklen
    unfold undo
    rw [hnil]
    rfl

/-- C5 witness: 21 snapshot-pushing identity operations on a blank 1×1
document; the 20th undo call succeeds, the 21st reports no state. -/
theorem history_cap_twenty_witness :
    (undo (undoN 19 (opsApply (List.replicate 21 (fun su : Surface => su))
        { initState with current_surface := some (blankSurface 1 1) }))).1 = true ∧
    (undo (undoN 20 (opsApply (List.replicate 21 (fun su : Surface => su))
        { initState with current_surface := some (blankSurface 1 1) }))).1 = false := by
  have h := history_cap_twenty (List.replicate 21 (fun su : Surface => su))
    { initState with current_surface := some (blankSurface 1 1) } (blankSurface 1 1)
    rfl (by decide) (by decide)
  exact ⟨h.1 19 (by decide), h.2.1⟩
